import Mathlib

set_option maxHeartbeats 1000000

/-!
Verification development for the langgraph-rust agent runtime.

The definitions below are a shallow embedding of the Rust sources:
graph builder and compiler (`src/langgraph/src/graph/state_graph.rs`),
execution engine (`src/langgraph/src/graph/compiled.rs`), the ReAct
nodes (`src/langgraph/src/react/think_node.rs`, `act_node.rs`) and the
ReAct runner (`src/langgraph/src/react/runner.rs`).  Async functions are
embedded as pure functions; trait objects (nodes, middleware, LLM client,
tool source, checkpointer) become function-typed parameters; externally
observable effects (stream-channel sends, checkpoint writes, tool
invocations, node dispatches) are recorded in explicit traces.
-/

/-- Sentinel for graph entry (`START` in `state_graph.rs`). -/
def START : String := "__start__"

/-- Sentinel for graph exit (`END` in `state_graph.rs`). -/
def END : String := "__end__"

/-- A conversation message.  The message enum itself is not under `src/`;
its three variants and the `Message::system/user/assistant` constructors are
pinned by their uses in `react/mod.rs`, `runner.rs` and `think_node.rs`. -/
inductive Message where
  | system (content : String)
  | user (content : String)
  | assistant (content : String)
deriving DecidableEq, Repr

/-- Transition directive returned by a node (`Next` in `graph/next.rs`):
continue in static order, jump to a node, or end the run. -/
inductive Next where
  | Continue
  | Node (id : String)
  | End
deriving DecidableEq, Repr

/-- Agent execution error (`error.rs`). -/
inductive AgentError where
  | ExecutionFailed (msg : String)
deriving DecidableEq, Repr

/-- Graph compilation error (`graph/compile_error.rs`). -/
inductive CompilationError where
  | NodeNotFound (id : String)
  | MissingStart
  | MissingEnd
  | InvalidChain (msg : String)
deriving DecidableEq, Repr

/-- Per-invocation config (`memory/config.rs`). -/
structure RunnableConfig where
  thread_id : Option String
  checkpoint_id : Option String
  checkpoint_ns : String
  user_id : Option String
deriving DecidableEq, Repr

/-- `RunnableConfig::default()`: all optionals `None`, empty namespace. -/
def RunnableConfig.default : RunnableConfig :=
  { thread_id := none, checkpoint_id := none, checkpoint_ns := "", user_id := none }

/-- Modelled from the spec: a checkpoint read/write error (serialization or
backend storage failure).  The `CheckpointError` enum lives in
`memory/checkpointer.rs`, which is not under `src/`; only its display text is
observable to the code verified here. -/
structure CheckpointError where
  text : String
deriving DecidableEq, Repr

/-- Source tag of a checkpoint (`memory/checkpoint.rs`). -/
inductive CheckpointSource where
  | Input
  | Loop
  | Update
  | Fork
deriving DecidableEq, Repr

/-- Checkpoint metadata (`memory/checkpoint.rs`); `created_at` is a
`SystemTime` in the source, abstracted here to an optional tick count. -/
structure CheckpointMetadata where
  source : CheckpointSource
  step : Nat
  created_at : Option Nat
deriving DecidableEq, Repr

/-- One checkpoint (`memory/checkpoint.rs`): state snapshot plus versions and
identifiers.  `channel_versions` is a `HashMap<String, u64>` in the source,
embedded as an association list. -/
structure Checkpoint (S : Type) where
  id : String
  ts : String
  channel_values : S
  channel_versions : List (String × Nat)
  metadata : CheckpointMetadata
deriving DecidableEq, Repr

/-- Stream mode selector (`stream/mod.rs`). -/
inductive StreamMode where
  | Values
  | Updates
  | Messages
  | Custom
deriving DecidableEq, Repr

/-- Metadata attached to streamed messages (`stream/mod.rs`). -/
structure StreamMetadata where
  langgraph_node : String
deriving DecidableEq, Repr

/-- One chunk of streamed message content (`stream/mod.rs`). -/
structure MessageChunk where
  content : String
deriving DecidableEq, Repr

/-- A JSON value (`serde_json::Value`, an external collaborator).  Number
payloads are abstracted to `Int`; parsing and rendering of JSON text are
external functions and are passed as parameters where the source uses
`serde_json::from_str` / `Value::to_string`. -/
inductive Json where
  | null
  | bool (b : Bool)
  | num (n : Int)
  | str (s : String)
  | arr (items : List Json)
  | obj (fields : List (String × Json))

/-- Streamed event emitted while running a graph (`stream/mod.rs`). -/
inductive StreamEvent (S : Type) where
  | Values (state : S)
  | Updates (node_id : String) (state : S)
  | Messages (chunk : MessageChunk) (metadata : StreamMetadata)
  | Custom (payload : Json)

/-- `Checkpointer::put` as consumed by the engine: persists a state snapshot
for a config.  The engine discards the returned `Result`
(`let _ = cp.put(cfg, &checkpoint).await` in `compiled.rs`); the checkpoint
wrapper built by `Checkpoint::from_state` adds only time-derived metadata, so
the put function is embedded on the state value itself. -/
abbrev PutFn (S : Type) := RunnableConfig → S → Except CheckpointError Unit

/-- The result type of one node step (`run` / `run_with_context`). -/
abbrev NodeStepFn (S : Type) := S → Except AgentError (S × Next)

/-- `RunContext` (`graph/run_context.rs`): per-run config, presence of the
stream sender, and the requested stream modes.  The `HashSet<StreamMode>` is
embedded as a list queried by membership, and the `mpsc::Sender` by the flag
`stream_tx` plus the event trace of the run. -/
structure RunContextM where
  config : RunnableConfig
  stream_tx : Bool
  stream_mode : List StreamMode

/-- The `Node` trait (`graph/node.rs`): `run`, plus the context-aware
`run_with_context` used when streaming is active. -/
structure Node (S : Type) where
  run : NodeStepFn S
  run_with_context : S → RunContextM → Except AgentError (S × Next)

/-- A node whose `run_with_context` ignores the context and calls `run`
(the trait's default implementation). -/
def Node.ofFun {S : Type} (f : NodeStepFn S) : Node S :=
  { run := f, run_with_context := fun s _ => f s }

/-- `NodeMiddleware::around_run`: receives the node id, the pre-step state and
the continuation performing the node logic. -/
abbrev NodeMiddlewareF (S : Type) :=
  String → S → NodeStepFn S → Except AgentError (S × Next)

/-- Compiled graph (`graph/compiled.rs`): node table, execution order, optional
checkpointer and middleware.  The node `HashMap` is embedded as an association
list looked up by key. -/
structure CompiledStateGraph (S : Type) where
  nodes : List (String × Node S)
  edge_order : List String
  checkpointer : Option (PutFn S)
  middleware : Option (NodeMiddlewareF S)

/-- Graph builder (`graph/state_graph.rs`).  The `store`, `state_updater`,
`retry_policy` and `interrupt_handler` fields do not participate in
compilation validation or in the verified execution paths and are omitted. -/
structure StateGraph (S : Type) where
  nodes : List (String × Node S)
  edges : List (String × String)
  middleware : Option (NodeMiddlewareF S)

/-- An empty graph (`StateGraph::new`). -/
def StateGraph.new (S : Type) : StateGraph S :=
  { nodes := [], edges := [], middleware := none }

/-- `HashMap::contains_key` over the association-list embedding. -/
def contains_key {S : Type} (nodes : List (String × Node S)) (k : String) : Bool :=
  nodes.any (fun e => e.1 == k)

/-- `StateGraph::add_node`: registers a node by id, replacing any previous
binding (the `HashMap::insert` semantics). -/
def StateGraph.add_node {S : Type} (g : StateGraph S) (id : String) (node : Node S) :
    StateGraph S :=
  { g with nodes := (id, node) :: g.nodes.filter (fun e => !(e.1 == id)) }

/-- `StateGraph::add_edge`: appends a directed edge. -/
def StateGraph.add_edge {S : Type} (g : StateGraph S) (from_id to_id : String) :
    StateGraph S :=
  { g with edges := g.edges ++ [(from_id, to_id)] }

/-- `StateGraph::with_middleware`: attaches middleware for the fluent API. -/
def StateGraph.with_middleware {S : Type} (g : StateGraph S) (m : NodeMiddlewareF S) :
    StateGraph S :=
  { g with middleware := some m }

/-- The first validation loop of `compile_internal`: every non-sentinel edge
endpoint must be a registered node; returns the first offending endpoint. -/
def check_edge_nodes {S : Type} (nodes : List (String × Node S)) :
    List (String × String) → Option CompilationError
  | [] => none
  | (f, t) :: rest =>
    if !(f == START) && !(contains_key nodes f) then some (.NodeNotFound f)
    else if !(t == END) && !(contains_key nodes t) then some (.NodeNotFound t)
    else check_edge_nodes nodes rest

/-- The `next_map` lookup of `compile_internal`: among edges whose `from` is
not `START`, find the successor of `k`.  The source collects these edges into
a `HashMap`; the walk only runs after the duplicate-`from` check has passed,
so every key occurs at most once and first-match lookup agrees with the map. -/
def next_map_find (edges : List (String × String)) (k : String) : Option String :=
  ((edges.filter (fun e => !(e.1 == START))).find? (fun e => e.1 == k)).map (fun e => e.2)

/-- The chain walk of `compile_internal`: follow `next_of` from the head,
accumulating the visited order; stop at `END` (checking the expected tail),
fail on a revisit.  The source's `loop` terminates because each iteration
inserts a fresh node into `visited`; it is called with fuel
`edges.length + 1`, which bounds the number of insertions, so the fuel-out
arm is unreachable there. -/
def walk_chain (next_of : String → Option String) (expected_last : String) :
    Nat → String → List String → List String → Except CompilationError (List String)
  | 0, _, _, _ => .error (.InvalidChain "cycle detected")
  | fuel + 1, current, visited, edge_order =>
    match next_of current with
    | none => .ok edge_order
    | some next =>
      if next == END then
        if current == expected_last then .ok edge_order
        else .error (.InvalidChain "chain tail does not match the single edge to END")
      else if visited.contains next then .error (.InvalidChain "cycle detected")
      else walk_chain next_of expected_last fuel next (next :: visited) (edge_order ++ [next])

/-- `StateGraph::compile_internal` (`state_graph.rs`): validates edges and
derives the linear execution order.  The source checks
`unique_froms.len() != froms.len()` via a `HashSet`; that is exactly the
negation of `Nodup`. -/
def StateGraph.compile_internal {S : Type} (g : StateGraph S)
    (checkpointer : Option (PutFn S)) (middleware : Option (NodeMiddlewareF S)) :
    Except CompilationError (CompiledStateGraph S) :=
  match check_edge_nodes g.nodes g.edges with
  | some e => .error e
  | none =>
    match (g.edges.filter (fun e => e.1 == START)).map (fun e => e.2) with
    | [] => .error .MissingStart
    | [first] =>
      match (g.edges.filter (fun e => e.2 == END)).map (fun e => e.1) with
      | [expected_last] =>
        if ((g.edges.filter (fun e => !(e.1 == START))).map (fun e => e.1)).Nodup then
          if ((g.edges.filter (fun e => !(e.2 == END))).map (fun e => e.2)).Nodup then
            match walk_chain (next_map_find g.edges) expected_last
                (g.edges.length + 1) first [first] [first] with
            | .error e => .error e
            | .ok order =>
              .ok { nodes := g.nodes, edge_order := order,
                    checkpointer := checkpointer, middleware := middleware }
          else .error (.InvalidChain "duplicate to (merge or branch)")
        else .error (.InvalidChain "duplicate from (branch)")
      | _ => .error .MissingEnd
    | _ => .error (.InvalidChain "multiple edges from START (branch)")

/-- `StateGraph::compile`: no checkpointer; uses the middleware set via
`with_middleware`, if any. -/
def StateGraph.compile {S : Type} (g : StateGraph S) :
    Except CompilationError (CompiledStateGraph S) :=
  g.compile_internal none g.middleware

/-- `StateGraph::compile_with_checkpointer`: passes the checkpointer and `None`
middleware to `compile_internal`. -/
def StateGraph.compile_with_checkpointer {S : Type} (g : StateGraph S)
    (checkpointer : PutFn S) : Except CompilationError (CompiledStateGraph S) :=
  g.compile_internal (some checkpointer) none

/-- `StateGraph::compile_with_middleware`. -/
def StateGraph.compile_with_middleware {S : Type} (g : StateGraph S)
    (middleware : NodeMiddlewareF S) : Except CompilationError (CompiledStateGraph S) :=
  g.compile_internal none (some middleware)

/-- `StateGraph::compile_with_checkpointer_and_middleware`. -/
def StateGraph.compile_with_checkpointer_and_middleware {S : Type} (g : StateGraph S)
    (checkpointer : PutFn S) (middleware : NodeMiddlewareF S) :
    Except CompilationError (CompiledStateGraph S) :=
  g.compile_internal (some checkpointer) (some middleware)

/-- Outcome of a run: the Rust `Result<S, AgentError>` plus the two ways the
source can fail to produce one — an `expect` panic, or (embedding artifact)
running out of fuel while the dynamic `Next::Node` loop is still going. -/
inductive RunOutcome (S : Type) where
  | ok (state : S)
  | err (e : AgentError)
  | panicked (msg : String)
  | outOfFuel

/-- One run of `run_loop_inner`, with the externally observable traces:
`events` are the stream-channel sends in order, `puts` the checkpoint writes
(the state snapshot passed to `Checkpointer::put`), `steps` the successful
node completions with their post-step state, `execs` every node dispatch. -/
structure RunResult (S : Type) where
  res : RunOutcome S
  events : List (StreamEvent S)
  puts : List S
  steps : List (String × S)
  execs : List String

/-- `HashMap::get` on the node table (`self.nodes.get(current_id)`). -/
def lookup_node {S : Type} (nodes : List (String × Node S)) (k : String) : Option (Node S) :=
  (nodes.find? (fun e => e.1 == k)).map (fun e => e.2)

/-- `Iterator::position` (`self.edge_order.iter().position(|x| x == current_id)`). -/
def position_of : List String → String → Option Nat
  | [], _ => none
  | x :: xs, k => if x == k then some 0 else (position_of xs k).map (fun n => n + 1)

/-- The event sends after a node completes (`compiled.rs` lines 86-100): when a
run context with a sender is present, a `Values` snapshot if requested, then an
`Updates` pair if requested — in that order, before `next` is interpreted. -/
def emitted_events {S : Type} (run_ctx : Option RunContextM) (node_id : String) (s : S) :
    List (StreamEvent S) :=
  match run_ctx with
  | none => []
  | some ctx =>
    if ctx.stream_tx then
      (if ctx.stream_mode.contains StreamMode.Values then [StreamEvent.Values s] else []) ++
      (if ctx.stream_mode.contains StreamMode.Updates then [StreamEvent.Updates node_id s] else [])
    else []

/-- The terminal checkpoint write (`compiled.rs`, both termination branches):
only when a checkpointer is attached and `config.thread_id` is set; the
result of `put` is discarded (`let _ = cp.put(..)`). -/
def puts_at_end {S : Type} (g : CompiledStateGraph S) (config : Option RunnableConfig)
    (s : S) : List S :=
  match g.checkpointer, config with
  | some put_fn, some cfg =>
    if cfg.thread_id.isSome then
      let _ := put_fn cfg s
      [s]
    else []
  | _, _ => []

/-- One node invocation: context-aware when a `RunContext` is present,
otherwise plain `run` (the continuation handed to middleware). -/
def node_step {S : Type} (node : Node S) (run_ctx : Option RunContextM) : NodeStepFn S :=
  fun s =>
    match run_ctx with
    | some ctx => node.run_with_context s ctx
    | none => node.run s

/-- `CompiledStateGraph::run_loop_inner` (`compiled.rs`): step through nodes,
wrapping each step in middleware when attached, emitting stream events after
each step, then interpreting `Next` — `End` terminates (with the terminal
checkpoint write), `Node(id)` jumps, `Continue` advances in `edge_order` or
terminates from the last node.  Missing lookups model the source's `expect`
panics.  Fuel bounds the dynamic loop; no theorem below depends on the
fuel-out value. -/
def run_loop_inner {S : Type} (g : CompiledStateGraph S) (config : Option RunnableConfig)
    (run_ctx : Option RunContextM) :
    Nat → S → String → RunResult S
  | 0, _, _ => { res := .outOfFuel, events := [], puts := [], steps := [], execs := [] }
  | fuel + 1, state, current_id =>
    match lookup_node g.nodes current_id with
    | none =>
      { res := .panicked "compiled graph has all nodes", events := [], puts := [],
        steps := [], execs := [] }
    | some node =>
      let step_result :=
        match g.middleware with
        | some mw => mw current_id state (node_step node run_ctx)
        | none => node_step node run_ctx state
      match step_result with
      | .error e =>
        { res := .err e, events := [], puts := [], steps := [], execs := [current_id] }
      | .ok (new_state, next) =>
        let evs := emitted_events run_ctx current_id new_state
        match next with
        | .End =>
          { res := .ok new_state, events := evs, puts := puts_at_end g config new_state,
            steps := [(current_id, new_state)], execs := [current_id] }
        | .Node id =>
          let r := run_loop_inner g config run_ctx fuel new_state id
          { r with events := evs ++ r.events,
                   steps := (current_id, new_state) :: r.steps,
                   execs := current_id :: r.execs }
        | .Continue =>
          match position_of g.edge_order current_id with
          | none =>
            { res := .panicked "current node in edge_order", events := evs, puts := [],
              steps := [(current_id, new_state)], execs := [current_id] }
          | some pos =>
            if pos + 1 ≥ g.edge_order.length then
              { res := .ok new_state, events := evs, puts := puts_at_end g config new_state,
                steps := [(current_id, new_state)], execs := [current_id] }
            else
              let r := run_loop_inner g config run_ctx fuel new_state
                  (g.edge_order.getD (pos + 1) current_id)
              { r with events := evs ++ r.events,
                       steps := (current_id, new_state) :: r.steps,
                       execs := current_id :: r.execs }

/-- `CompiledStateGraph::invoke`: fails on an empty `edge_order`, otherwise
runs the loop from the first node with no run context (no streaming). -/
def CompiledStateGraph.invoke {S : Type} (g : CompiledStateGraph S) (state : S)
    (config : Option RunnableConfig) (fuel : Nat) : RunResult S :=
  match g.edge_order.head? with
  | none =>
    { res := .err (.ExecutionFailed "empty graph"), events := [], puts := [],
      steps := [], execs := [] }
  | some first => run_loop_inner g config none fuel state first

/-- `CompiledStateGraph::stream`: the spawned task returns immediately (closing
the channel with zero events) on an empty `edge_order`; otherwise it runs the
loop with a run context carrying the sender and mode set, and the consumer
sees exactly the emitted events.  The task's `Result` is discarded
(`let _ = graph.run_loop_inner(..)`). -/
def CompiledStateGraph.stream {S : Type} (g : CompiledStateGraph S) (state : S)
    (config : Option RunnableConfig) (stream_mode : List StreamMode) (fuel : Nat) :
    List (StreamEvent S) :=
  match g.edge_order.head? with
  | none => []
  | some first =>
    let run_ctx : RunContextM :=
      { config := config.getD RunnableConfig.default, stream_tx := true,
        stream_mode := stream_mode }
    (run_loop_inner g config (some run_ctx) fuel state first).events

/-- A pending tool call (`state.rs`, pinned by uses in `act_node.rs` and
`react/mod.rs`): name, JSON-encoded arguments, optional call id. -/
structure ToolCall where
  id : Option String
  name : String
  arguments : String
deriving DecidableEq, Repr

/-- One tool result (`state.rs`, pinned by construction in `act_node.rs`). -/
structure ToolResult where
  call_id : Option String
  name : Option String
  content : String
deriving DecidableEq, Repr

/-- The ReAct loop state (`state.rs`, pinned by the struct literals in
`act_node.rs`, `think_node.rs` and `runner.rs`). -/
structure ReActState where
  messages : List Message
  tool_calls : List ToolCall
  tool_results : List ToolResult
  turn_count : Nat
deriving DecidableEq, Repr

/-- Modelled from the spec: a tool-source error
(`ToolSourceError` in `tool_source/mod.rs`, which is not under `src/`),
represented by its display text — the only part observable to `ActNode`. -/
structure ToolSourceError where
  text : String
deriving DecidableEq, Repr

/-- Successful tool output (`ToolCallContent` in `tool_source/mod.rs`, pinned
by uses: a text payload). -/
structure ToolCallContent where
  text : String
deriving DecidableEq, Repr

/-- `ToolSource::call_tool_with_context` as consumed by `ActNode`: tool name,
parsed JSON arguments, and the per-round context (the current message
history passed via `ToolCallContext::new(state.messages)`). -/
abbrev CallToolFn := String → Json → List Message → Except ToolSourceError ToolCallContent

/-- Error-handling configuration of `ActNode` (`act_node.rs`). -/
inductive HandleToolErrors where
  | Never
  | Always (msg : Option String)
  | Custom (handler : ToolSourceError → String → Json → String)

/-- `HandleToolErrors::default()` / `ActNode::new`: errors propagate. -/
def HandleToolErrors.defaultMode : HandleToolErrors := .Never

/-- Default error message template (`act_node.rs`). -/
def DEFAULT_TOOL_ERROR_TEMPLATE : String := "Error: {error}\n Please fix your mistakes."

/-- Default execution error template with tool name and kwargs
(`act_node.rs`).  `\x27` is the ASCII apostrophe. -/
def DEFAULT_EXECUTION_ERROR_TEMPLATE : String :=
  "Error executing tool \x27{tool_name}\x27 with kwargs {tool_kwargs} with error:\n {error}\n Please fix the error and try again."

/-- `ActNode::handle_error`: `Never` propagates (`none`); `Always` catches with
the custom message or the default template with `{tool_name}`,
`{tool_kwargs}` (the rendered arguments) and `{error}` substituted, in that
order; `Custom` calls the handler.  `render` stands for
`serde_json::Value::to_string`. -/
def handle_error (handle_tool_errors : HandleToolErrors) (render : Json → String)
    (error : ToolSourceError) (tool_name : String) (tool_args : Json) : Option String :=
  match handle_tool_errors with
  | .Never => none
  | .Always custom_msg =>
    some (custom_msg.getD
      (((DEFAULT_EXECUTION_ERROR_TEMPLATE.replace "{tool_name}" tool_name).replace
          "{tool_kwargs}" (render tool_args)).replace "{error}" error.text))
  | .Custom handler => some (handler error tool_name tool_args)

/-- `tc.arguments.trim().is_empty()`: the trimmed string is empty exactly when
every character is whitespace. -/
def trim_is_empty (s : String) : Bool :=
  s.data.all Char.isWhitespace

/-- Argument parsing in `ActNode::run`: an empty (after trim) payload becomes
the empty object, an unparsable one falls back to the empty object
(`serde_json::from_str(..).unwrap_or(json!({}))`); `from_str` stands for the
external JSON parser. -/
def parse_tool_args (from_str : String → Option Json) (arguments : String) : Json :=
  if trim_is_empty arguments then Json.obj []
  else (from_str arguments).getD (Json.obj [])

/-- The tool-call loop of `ActNode::run`: for each call, parse arguments, call
the tool with the per-round context, and either record the result, record a
handled error message, or propagate (aborting the remaining calls).  The
first component records every `call_tool` invocation, in order; the source
accumulates `tool_results` by pushing, here rebuilt by consing, producing the
same list. -/
def act_run_calls (handle_tool_errors : HandleToolErrors) (call_tool : CallToolFn)
    (from_str : String → Option Json) (render : Json → String)
    (ctx_messages : List Message) :
    List ToolCall → List (String × Json) × Except AgentError (List ToolResult)
  | [] => ([], .ok [])
  | tc :: rest =>
    let args := parse_tool_args from_str tc.arguments
    match call_tool tc.name args ctx_messages with
    | .ok content =>
      let r := act_run_calls handle_tool_errors call_tool from_str render ctx_messages rest
      ((tc.name, args) :: r.1,
       r.2.map (fun results =>
         { call_id := tc.id, name := some tc.name, content := content.text } :: results))
    | .error e =>
      match handle_error handle_tool_errors render e tc.name args with
      | some error_msg =>
        let r := act_run_calls handle_tool_errors call_tool from_str render ctx_messages rest
        ((tc.name, args) :: r.1,
         r.2.map (fun results =>
           { call_id := tc.id, name := some tc.name, content := error_msg } :: results))
      | none => ([(tc.name, args)], .error (.ExecutionFailed e.text))

/-- `ActNode::run` (`act_node.rs`): executes `state.tool_calls` against the
tool source (context = `state.messages`), replaces `tool_results`, keeps
`messages`, `tool_calls` and `turn_count`, and returns `Next::Continue`; a
propagated tool error becomes `AgentError::ExecutionFailed`.  The first
component is the trace of tool invocations (the `set_call_context`
bracketing touches only the external tool source and is not modelled). -/
def act_run (handle_tool_errors : HandleToolErrors) (call_tool : CallToolFn)
    (from_str : String → Option Json) (render : Json → String) (state : ReActState) :
    List (String × Json) × Except AgentError (ReActState × Next) :=
  let r := act_run_calls handle_tool_errors call_tool from_str render
      state.messages state.tool_calls
  (r.1, r.2.map (fun tool_results =>
    ({ messages := state.messages, tool_calls := state.tool_calls,
       tool_results := tool_results, turn_count := state.turn_count }, Next.Continue)))

/-- LLM completion response (`llm/mod.rs`). -/
structure LlmResponse where
  content : String
  tool_calls : List ToolCall

/-- `LlmClient::invoke` as consumed by `ThinkNode`. -/
abbrev LlmClientFn := List Message → Except AgentError LlmResponse

/-- `ThinkNode::run` (`think_node.rs`): call the LLM on `state.messages`,
append one assistant message with the response content, replace `tool_calls`
with the response's tool calls, keep `tool_results` and `turn_count`, and
return `Next::Continue`. -/
def think_run (llm : LlmClientFn) (state : ReActState) :
    Except AgentError (ReActState × Next) :=
  (llm state.messages).map (fun response =>
    ({ messages := state.messages ++ [Message.assistant response.content],
       tool_calls := response.tool_calls,
       tool_results := state.tool_results,
       turn_count := state.turn_count }, Next.Continue))

/-- Default system prompt for ReAct agents (`react/mod.rs`). -/
def REACT_SYSTEM_PROMPT : String :=
  "You are an agent that follows the ReAct pattern (Reasoning + Acting).\n\nRULES:\n1. THOUGHT first: Before any action, reason \"Do I need external information?\"\n   - If the question can be answered with your knowledge (math, general knowledge, reasoning) → give FINAL_ANSWER directly. Do NOT call tools.\n   - Only call tools when the user explicitly needs data you cannot know: current time, weather, search, etc.\n2. Use ACTION: call tools only when truly needed, or give FINAL_ANSWER when you have enough.\n3. After each tool result (OBSERVATION), reason about what you learned and decide the next step.\n4. Be thorough but concise in your reasoning.\n5. When using tool data, cite or summarize it clearly in your final answer.\n\nPHASES:\n- THOUGHT: Reason about what the user needs, what you already have, and whether any tool would help.\n- ACTION: Execute one tool at a time, or give FINAL_ANSWER with your complete response.\n- OBSERVATION: After seeing tool output, analyze it and either call another tool or answer.\n\nExplain your reasoning clearly. Use tools only when they can help; for simple questions, answer directly. Do not make up facts; use tool results when available."

/-- `Checkpointer::get_tuple` as consumed by `build_react_initial_state`:
the latest checkpoint (with metadata) for the config, or a read error. -/
abbrev GetTupleFn :=
  RunnableConfig → Except CheckpointError (Option (Checkpoint ReActState × CheckpointMetadata))

/-- `build_react_initial_state` (`react/runner.rs`): when a checkpointer and a
config with a thread id are present, load the latest checkpoint — a read
error propagates; a found checkpoint's state gets the new user message
appended and `tool_calls`/`tool_results` reset.  Otherwise (including a
missing checkpoint) a fresh state: system prompt (the given one or
`REACT_SYSTEM_PROMPT`), the user message, empty calls/results, turn 0.
The wildcard arm mirrors the source's `expect`s, which cannot fire because
`load_from_checkpoint` implies both options are `Some`. -/
def build_react_initial_state (user_message : String)
    (checkpointer : Option GetTupleFn) (runnable_config : Option RunnableConfig)
    (system_prompt : Option String) : Except CheckpointError ReActState :=
  let load_from_checkpoint :=
    checkpointer.isSome && (runnable_config.bind (fun c => c.thread_id)).isSome
  let fresh : ReActState :=
    { messages := [Message.system (system_prompt.getD REACT_SYSTEM_PROMPT),
                   Message.user user_message],
      tool_calls := [], tool_results := [], turn_count := 0 }
  if load_from_checkpoint then
    match checkpointer, runnable_config with
    | some cp, some config =>
      match cp config with
      | .error e => .error e
      | .ok (some (checkpoint, _)) =>
        let state := checkpoint.channel_values
        .ok { state with messages := state.messages ++ [Message.user user_message],
                         tool_calls := [], tool_results := [] }
      | .ok none => .ok fresh
    | _, _ => .ok fresh
  else .ok fresh

/-- Chain edge list of a node sequence: one edge from `START` to the head, the
links of the chain, one edge from the tail to `END`.  Used to state which edge
multisets C1 speaks about; this is a specification-side helper, not a source
translation. -/
def chain_links : String → List String → List (String × String)
  | last, [] => [(last, END)]
  | prev, x :: xs => (prev, x) :: chain_links x xs

/-- The full edge set of a linear chain through the given nodes (empty for an
empty node list; C1 concerns nonempty chains). -/
def chain_edges : List String → List (String × String)
  | [] => []
  | first :: rest => (START, first) :: chain_links first rest

/-- The last element of a nonempty sequence given as head plus tail. -/
def last_of : String → List String → String
  | p, [] => p
  | _, x :: xs => last_of x xs

/-- C8: for every input state, whenever the LLM call on `state.messages`
returns a response, `ThinkNode::run` returns the state with exactly one
assistant message holding the response content appended, `tool_calls` replaced
by the response's tool calls, `tool_results` and `turn_count` unchanged, and
the directive `Next::Continue`. -/
theorem c8_think_run_appends_assistant (llm : LlmClientFn) (state : ReActState)
    (response : LlmResponse) (h : llm state.messages = .ok response) :
    think_run llm state =
      .ok ({ messages := state.messages ++ [Message.assistant response.content],
             tool_calls := response.tool_calls,
             tool_results := state.tool_results,
             turn_count := state.turn_count }, Next.Continue) := by
  simp [think_run, h, Except.map]

/-- Witness for C8 at a concrete mock LLM and state. -/
theorem c8_think_run_appends_assistant_witness :
    think_run (fun _ => .ok { content := "Hello from mock.", tool_calls := [] })
        { messages := [Message.user "hi"], tool_calls := [], tool_results := [],
          turn_count := 0 } =
      .ok ({ messages := [Message.user "hi"] ++ [Message.assistant "Hello from mock."],
             tool_calls := [], tool_results := [], turn_count := 0 }, Next.Continue) :=
  c8_think_run_appends_assistant _ _ _ rfl

/-- C10: on a compiled graph with an empty execution order, `invoke` returns
`Err(ExecutionFailed("empty graph"))` while `stream` closes with zero events
and signals no error — the empty-graph failure is observable only through
`invoke`. -/
theorem c10_empty_graph_invoke_vs_stream (S : Type) (nodes : List (String × Node S))
    (cp : Option (PutFn S)) (mw : Option (NodeMiddlewareF S)) (s : S)
    (config : Option RunnableConfig) (modes : List StreamMode) (fuel : Nat) :
    (CompiledStateGraph.invoke ⟨nodes, [], cp, mw⟩ s config fuel).res =
        .err (.ExecutionFailed "empty graph") ∧
    CompiledStateGraph.stream ⟨nodes, [], cp, mw⟩ s config modes fuel = [] :=
  ⟨rfl, rfl⟩

/-- C3: `build_react_initial_state` is a pure function of its inputs.  With a
checkpointer and a config carrying a thread id: a stored checkpoint yields
that checkpoint's state with the new user message appended and
`tool_calls`/`tool_results` reset; a read error propagates as `Err`.  In every
other case (no checkpointer, no thread id, or no stored checkpoint) the
result is a fresh state `[system prompt, user message]` with empty
calls/results and `turn_count` 0. -/
theorem c3_build_react_initial_state_cases :
    (∀ (user_message : String) (cp : GetTupleFn) (config : RunnableConfig)
        (system_prompt : Option String) (chk : Checkpoint ReActState)
        (meta : CheckpointMetadata) (tid : String),
        config.thread_id = some tid →
        cp config = .ok (some (chk, meta)) →
        build_react_initial_state user_message (some cp) (some config) system_prompt =
          .ok { chk.channel_values with
                  messages := chk.channel_values.messages ++ [Message.user user_message],
                  tool_calls := [], tool_results := [] }) ∧
    (∀ (user_message : String) (cp : GetTupleFn) (config : RunnableConfig)
        (system_prompt : Option String) (e : CheckpointError) (tid : String),
        config.thread_id = some tid →
        cp config = .error e →
        build_react_initial_state user_message (some cp) (some config) system_prompt =
          .error e) ∧
    (∀ (user_message : String) (checkpointer : Option GetTupleFn)
        (runnable_config : Option RunnableConfig) (system_prompt : Option String),
        ((checkpointer.isSome &&
            (runnable_config.bind (fun c => c.thread_id)).isSome) = false ∨
          (∃ cp config, checkpointer = some cp ∧ runnable_config = some config ∧
            cp config = .ok none)) →
        build_react_initial_state user_message checkpointer runnable_config system_prompt =
          .ok { messages := [Message.system (system_prompt.getD REACT_SYSTEM_PROMPT),
                             Message.user user_message],
                tool_calls := [], tool_results := [], turn_count := 0 }) := by
  refine ⟨?_, ?_, ?_⟩
  · intro um cp config sp chk meta tid htid hcp
    simp [build_react_initial_state, htid, hcp]
  · intro um cp config sp e tid htid hcp
    simp [build_react_initial_state, htid, hcp]
  · intro um checkpointer runnable_config sp h
    rcases h with h | ⟨cp, config, hc, hr, hok⟩
    · simp [build_react_initial_state, h]
    · subst hc; subst hr
      rcases htid : config.thread_id with _ | tid
      · simp [build_react_initial_state, htid]
      · simp [build_react_initial_state, htid, hok]

/-- Witness for C3 at concrete checkpointers: a stored checkpoint, a failing
read, and an empty store. -/
theorem c3_build_react_initial_state_witness :
    (build_react_initial_state "second"
        (some (fun _ => .ok (some
          ({ id := "c1", ts := "0",
             channel_values :=
               { messages := [Message.system "sys", Message.user "first",
                              Message.assistant "Reply to first"],
                 tool_calls := [], tool_results := [], turn_count := 1 },
             channel_versions := [],
             metadata := { source := .Update, step := 0, created_at := none } },
           { source := .Update, step := 0, created_at := none }))))
        (some { thread_id := some "t1", checkpoint_id := none, checkpoint_ns := "",
                user_id := none })
        none =
      .ok { messages := [Message.system "sys", Message.user "first",
                         Message.assistant "Reply to first"] ++ [Message.user "second"],
            tool_calls := [], tool_results := [], turn_count := 1 }) ∧
    (build_react_initial_state "hi"
        (some (fun _ => .error { text := "read failed" }))
        (some { thread_id := some "t1", checkpoint_id := none, checkpoint_ns := "",
                user_id := none })
        none =
      .error { text := "read failed" }) ∧
    (build_react_initial_state "hi" (some (fun _ => .ok none))
        (some { thread_id := some "t1", checkpoint_id := none, checkpoint_ns := "",
                user_id := none })
        (some "sys") =
      .ok { messages := [Message.system "sys", Message.user "hi"],
            tool_calls := [], tool_results := [], turn_count := 0 }) := by
  refine ⟨?_, ?_, ?_⟩
  · exact c3_build_react_initial_state_cases.1 "second" _ _ none
      { id := "c1", ts := "0",
        channel_values :=
          { messages := [Message.system "sys", Message.user "first",
                         Message.assistant "Reply to first"],
            tool_calls := [], tool_results := [], turn_count := 1 },
        channel_versions := [],
        metadata := { source := .Update, step := 0, created_at := none } }
      { source := .Update, step := 0, created_at := none } "t1" rfl rfl
  · exact c3_build_react_initial_state_cases.2.1 "hi" _ _ none
      { text := "read failed" } "t1" rfl rfl
  · exact (c3_build_react_initial_state_cases.2.2 "hi" _ _ (some "sys")
      (Or.inr ⟨_, _, rfl, rfl, rfl⟩)).trans (by rfl)

/-- On every successful compilation, the compiled graph carries exactly the
checkpointer and middleware that were passed to `compile_internal`. -/
theorem compile_internal_fields_of_ok {S : Type} (g : StateGraph S)
    (cp : Option (PutFn S)) (mw : Option (NodeMiddlewareF S)) (c : CompiledStateGraph S)
    (h : g.compile_internal cp mw = .ok c) :
    c.middleware = mw ∧ c.checkpointer = cp := by
  unfold StateGraph.compile_internal at h
  repeat' split at h
  any_goals exact Except.noConfusion h
  cases h
  exact ⟨rfl, rfl⟩

/-- C9: after `with_middleware(m)`, `compile()` keeps `m` on the compiled
graph, and `compile_with_checkpointer_and_middleware` keeps the middleware it
is given, but `compile_with_checkpointer(cp)` produces a compiled graph with
no middleware — the fluent middleware is silently discarded on that path. -/
theorem c9_with_middleware_vs_checkpointer :
    (∀ (S : Type) (g : StateGraph S) (m : NodeMiddlewareF S) (c : CompiledStateGraph S),
        (g.with_middleware m).compile = .ok c → c.middleware = some m) ∧
    (∀ (S : Type) (g : StateGraph S) (m : NodeMiddlewareF S) (cp : PutFn S)
        (c : CompiledStateGraph S),
        (g.with_middleware m).compile_with_checkpointer cp = .ok c →
        c.middleware = none) ∧
    (∀ (S : Type) (g : StateGraph S) (m : NodeMiddlewareF S) (cp : PutFn S)
        (c : CompiledStateGraph S),
        (g.with_middleware m).compile_with_checkpointer_and_middleware cp m = .ok c →
        c.middleware = some m) := by
  refine ⟨?_, ?_, ?_⟩
  · intro S g m c h
    exact (compile_internal_fields_of_ok _ _ _ _ h).1
  · intro S g m cp c h
    exact (compile_internal_fields_of_ok _ _ _ _ h).1
  · intro S g m cp c h
    exact (compile_internal_fields_of_ok _ _ _ _ h).1

/-- Witness for C9 at a concrete one-node graph: `compile()` keeps the fluent
middleware, `compile_with_checkpointer` drops it. -/
theorem c9_with_middleware_vs_checkpointer_witness :
    (∃ c, ((StateGraph.mk [("a", Node.ofFun (fun (s : Nat) => .ok (s, .Continue)))]
              [(START, "a"), ("a", END)] none).with_middleware
                (fun _ s k => k s)).compile = .ok c ∧
          c.middleware = some (fun _ s k => k s)) ∧
    (∃ c, ((StateGraph.mk [("a", Node.ofFun (fun (s : Nat) => .ok (s, .Continue)))]
              [(START, "a"), ("a", END)] none).with_middleware
                (fun _ s k => k s)).compile_with_checkpointer (fun _ _ => .ok ()) = .ok c ∧
          c.middleware = none) := by
  constructor
  · refine ⟨_, rfl, ?_⟩
    exact c9_with_middleware_vs_checkpointer.1 Nat
      (StateGraph.mk [("a", Node.ofFun (fun (s : Nat) => .ok (s, .Continue)))]
        [(START, "a"), ("a", END)] none)
      (fun _ s k => k s) _ rfl
  · refine ⟨_, rfl, ?_⟩
    exact c9_with_middleware_vs_checkpointer.2.1 Nat
      (StateGraph.mk [("a", Node.ofFun (fun (s : Nat) => .ok (s, .Continue)))]
        [(START, "a"), ("a", END)] none)
      (fun _ s k => k s) (fun _ _ => .ok ()) _ rfl

/-- Under `Always(None)`, the tool-call loop never fails: every call yields one
result, a successful call its content, a failing call the default formatted
error message; the trace shows every call was executed. -/
theorem act_run_calls_always_none (call_tool : CallToolFn) (from_str : String → Option Json)
    (render : Json → String) (msgs : List Message) (tcs : List ToolCall) :
    act_run_calls (.Always none) call_tool from_str render msgs tcs =
      (tcs.map (fun tc => (tc.name, parse_tool_args from_str tc.arguments)),
       .ok (tcs.map (fun tc =>
         match call_tool tc.name (parse_tool_args from_str tc.arguments) msgs with
         | .ok content => { call_id := tc.id, name := some tc.name, content := content.text }
         | .error e =>
           { call_id := tc.id, name := some tc.name,
             content := ((DEFAULT_EXECUTION_ERROR_TEMPLATE.replace "{tool_name}"
                 tc.name).replace "{tool_kwargs}"
                 (render (parse_tool_args from_str tc.arguments))).replace
                 "{error}" e.text }))) := by
  induction tcs with
  | nil => rfl
  | cons tc rest ih =>
    cases h : call_tool tc.name (parse_tool_args from_str tc.arguments) msgs with
    | ok content =>
      simp only [act_run_calls, h, ih, Except.map, List.map_cons]
    | error e =>
      simp only [act_run_calls, h, ih, handle_error, Option.getD, Except.map, List.map_cons]

/-- Under `Never`, the loop stops at the first failing call: the preceding
successful calls and the failing one are executed, nothing after it, and the
step fails with the error's text. -/
theorem act_run_calls_never_fails (call_tool : CallToolFn) (from_str : String → Option Json)
    (render : Json → String) (msgs : List Message) :
    ∀ (pre post : List ToolCall) (tc : ToolCall) (e : ToolSourceError),
      (∀ tc' ∈ pre, ∃ content,
        call_tool tc'.name (parse_tool_args from_str tc'.arguments) msgs = .ok content) →
      call_tool tc.name (parse_tool_args from_str tc.arguments) msgs = .error e →
      act_run_calls .Never call_tool from_str render msgs (pre ++ tc :: post) =
        ((pre ++ [tc]).map (fun tc' => (tc'.name, parse_tool_args from_str tc'.arguments)),
         .error (.ExecutionFailed e.text)) := by
  intro pre
  induction pre with
  | nil =>
    intro post tc e _ hfail
    simp [act_run_calls, hfail, handle_error]
  | cons p pre ih =>
    intro post tc e hpre hfail
    obtain ⟨content, hp⟩ := hpre p (by simp)
    simp only [List.cons_append, act_run_calls, hp, List.append_eq]
    rw [ih post tc e (fun tc' h => hpre tc' (by simp [h])) hfail]
    simp [Except.map]

/-- C2: with `HandleToolErrors::Always`, a failing tool call produces a
ToolResult correlated to the call's id whose content is the default formatted
message embedding the tool name, its rendered arguments and the error text;
execution continues through all remaining calls and `run` returns `Ok` with
`Next::Continue`.  With the default `Never`, the first failing call makes
`run` return `Err(ExecutionFailed(error text))` and none of the remaining
calls in that round is executed (the invocation trace stops at the failing
call). -/
theorem c2_tool_error_policy :
    (∀ (call_tool : CallToolFn) (from_str : String → Option Json)
        (render : Json → String) (state : ReActState),
        act_run (.Always none) call_tool from_str render state =
          (state.tool_calls.map (fun tc => (tc.name, parse_tool_args from_str tc.arguments)),
           .ok ({ state with tool_results := state.tool_calls.map (fun tc =>
                    match call_tool tc.name (parse_tool_args from_str tc.arguments)
                        state.messages with
                    | .ok content =>
                      { call_id := tc.id, name := some tc.name, content := content.text }
                    | .error e =>
                      { call_id := tc.id, name := some tc.name,
                        content := ((DEFAULT_EXECUTION_ERROR_TEMPLATE.replace "{tool_name}"
                            tc.name).replace "{tool_kwargs}"
                            (render (parse_tool_args from_str tc.arguments))).replace
                            "{error}" e.text }) },
                Next.Continue))) ∧
    (∀ (call_tool : CallToolFn) (from_str : String → Option Json)
        (render : Json → String) (state : ReActState)
        (pre post : List ToolCall) (tc : ToolCall) (e : ToolSourceError),
        state.tool_calls = pre ++ tc :: post →
        (∀ tc' ∈ pre, ∃ content,
          call_tool tc'.name (parse_tool_args from_str tc'.arguments) state.messages =
            .ok content) →
        call_tool tc.name (parse_tool_args from_str tc.arguments) state.messages =
          .error e →
        act_run .Never call_tool from_str render state =
          ((pre ++ [tc]).map (fun tc' => (tc'.name, parse_tool_args from_str tc'.arguments)),
           .error (.ExecutionFailed e.text))) := by
  constructor
  · intro call_tool from_str render state
    unfold act_run
    rw [act_run_calls_always_none]
    simp [Except.map]
  · intro call_tool from_str render state pre post tc e hsplit hpre hfail
    unfold act_run
    rw [hsplit, act_run_calls_never_fails call_tool from_str render state.messages
      pre post tc e hpre hfail]
    simp [Except.map]

/-- Witness for C2: a mock tool source where "good" succeeds and "bad" fails.
Under `Always(None)` every call yields a result and the step succeeds; under
`Never` the run aborts at the failing call and the third call is never
executed. -/
theorem c2_tool_error_policy_witness :
    (act_run (.Always none)
        (fun name _ _ => if name == "good" then .ok { text := "fine" }
          else .error { text := "boom" })
        (fun _ => none) (fun _ => "null")
        { messages := [], tool_results := [], turn_count := 0,
          tool_calls := [{ id := some "1", name := "good", arguments := "" },
                         { id := some "2", name := "bad", arguments := "" },
                         { id := some "3", name := "good", arguments := "" }] } =
      ([("good", Json.obj []), ("bad", Json.obj []), ("good", Json.obj [])],
       .ok ({ messages := [],
              tool_calls := [{ id := some "1", name := "good", arguments := "" },
                             { id := some "2", name := "bad", arguments := "" },
                             { id := some "3", name := "good", arguments := "" }],
              tool_results :=
                [{ call_id := some "1", name := some "good", content := "fine" },
                 { call_id := some "2", name := some "bad",
                   content := ((DEFAULT_EXECUTION_ERROR_TEMPLATE.replace "{tool_name}"
                       "bad").replace "{tool_kwargs}" "null").replace "{error}" "boom" },
                 { call_id := some "3", name := some "good", content := "fine" }],
              turn_count := 0 }, Next.Continue))) ∧
    (act_run .Never
        (fun name _ _ => if name == "good" then .ok { text := "fine" }
          else .error { text := "boom" })
        (fun _ => none) (fun _ => "null")
        { messages := [], tool_results := [], turn_count := 0,
          tool_calls := [{ id := some "1", name := "good", arguments := "" },
                         { id := some "2", name := "bad", arguments := "" },
                         { id := some "3", name := "good", arguments := "" }] } =
      ([("good", Json.obj []), ("bad", Json.obj [])],
       .error (.ExecutionFailed "boom"))) := by
  constructor
  · exact (c2_tool_error_policy.1 _ _ _ _).trans (by rfl)
  · exact (c2_tool_error_policy.2 _ _ _
      { messages := [], tool_results := [], turn_count := 0,
        tool_calls := [{ id := some "1", name := "good", arguments := "" },
                       { id := some "2", name := "bad", arguments := "" },
                       { id := some "3", name := "good", arguments := "" }] }
      [{ id := some "1", name := "good", arguments := "" }]
      [{ id := some "3", name := "good", arguments := "" }]
      { id := some "2", name := "bad", arguments := "" }
      { text := "boom" } rfl
      (by intro tc' h
          simp only [List.mem_singleton] at h
          subst h
          exact ⟨{ text := "fine" }, rfl⟩)
      rfl).trans (by rfl)

/-- The stream events of a run are exactly the per-step event blocks of the
successful node completions, concatenated in execution order.  Each block
(`emitted_events`) is a `Values` snapshot (if requested) followed by the
node's `Updates` pair (if requested), and the block is appended before the
node's `Next` directive is interpreted. -/
theorem run_loop_inner_events_eq {S : Type} (g : CompiledStateGraph S)
    (config : Option RunnableConfig) (run_ctx : Option RunContextM) :
    ∀ (fuel : Nat) (s : S) (cur : String),
      (run_loop_inner g config run_ctx fuel s cur).events =
        (run_loop_inner g config run_ctx fuel s cur).steps.flatMap
          (fun p => emitted_events run_ctx p.1 p.2) := by
  intro fuel
  induction fuel with
  | zero => intro s cur; rfl
  | succ n ih =>
    intro s cur
    simp only [run_loop_inner]
    split
    · rfl
    · split
      · rfl
      · split
        · simp [List.flatMap]
        · simp [List.flatMap, ih]
        · split
          · simp [List.flatMap]
          · split
            · simp [List.flatMap]
            · simp [List.flatMap, ih]

/-- C4: streaming a two-node linear graph whose nodes both return
`Next::Continue` with both `Values` and `Updates` requested emits exactly four
events, in order: `Values` after node 1, `Updates` for node 1, `Values` after
node 2, `Updates` for node 2.  In general (second conjunct), a run's events
are exactly the per-node blocks of its successful steps in execution order,
each block `Values`-then-`Updates`, appended before the node's `Next`
directive is interpreted. -/
theorem c4_stream_two_node_event_order :
    (∀ (S : Type) (id1 id2 : String) (f1 f2 : S → S) (s : S)
        (config : Option RunnableConfig) (modes : List StreamMode) (fuel : Nat),
        id1 ≠ id2 → StreamMode.Values ∈ modes → StreamMode.Updates ∈ modes →
        CompiledStateGraph.stream
          { nodes := [(id1, Node.ofFun (fun t => .ok (f1 t, .Continue))),
                      (id2, Node.ofFun (fun t => .ok (f2 t, .Continue)))],
            edge_order := [id1, id2], checkpointer := none, middleware := none }
          s config modes (fuel + 2) =
        [.Values (f1 s), .Updates id1 (f1 s),
         .Values (f2 (f1 s)), .Updates id2 (f2 (f1 s))]) ∧
    (∀ (S : Type) (g : CompiledStateGraph S) (config : Option RunnableConfig)
        (run_ctx : Option RunContextM) (fuel : Nat) (s : S) (cur : String),
        (run_loop_inner g config run_ctx fuel s cur).events =
          (run_loop_inner g config run_ctx fuel s cur).steps.flatMap
            (fun p => emitted_events run_ctx p.1 p.2)) := by
  constructor
  · intro S id1 id2 f1 f2 s config modes fuel hne hv hu
    have h12 : (id1 == id2) = false := beq_eq_false_iff_ne.mpr hne
    have hcv : modes.contains StreamMode.Values = true := by
      simpa using hv
    have hcu : modes.contains StreamMode.Updates = true := by
      simpa using hu
    simp only [CompiledStateGraph.stream, List.head?]
    simp only [run_loop_inner, lookup_node, List.find?, beq_self_eq_true, h12,
      node_step, Node.ofFun, position_of, emitted_events, puts_at_end,
      List.getD, List.get?]
    simp [h12, hv, hu]
  · intro S g config run_ctx fuel s cur
    exact run_loop_inner_events_eq g config run_ctx fuel s cur

/-- Witness for C4 at a concrete two-node graph over `Nat`. -/
theorem c4_stream_two_node_event_order_witness :
    CompiledStateGraph.stream
      { nodes := [("first", Node.ofFun (fun (t : Nat) => .ok (t + 1, .Continue))),
                  ("second", Node.ofFun (fun (t : Nat) => .ok (t + 2, .Continue)))],
        edge_order := ["first", "second"], checkpointer := none, middleware := none }
      0 none [StreamMode.Values, StreamMode.Updates] 2 =
    [.Values 1, .Updates "first" 1, .Values 3, .Updates "second" 3] := by
  have h := c4_stream_two_node_event_order.1 Nat "first" "second"
    (fun t => t + 1) (fun t => t + 2) 0 none [StreamMode.Values, StreamMode.Updates] 0
    (by decide) (by decide) (by decide)
  simpa using h

/-- Checkpoint writes happen only at successful run termination: a run that
ends in an error, a panic, or fuel exhaustion has written nothing, and a run
that returns `Ok(t)` has performed exactly the single terminal write of `t`
(`puts_at_end`), which is nonempty only when a checkpointer is attached and
`config.thread_id` is set. -/
theorem run_loop_inner_puts_eq {S : Type} (g : CompiledStateGraph S)
    (config : Option RunnableConfig) (run_ctx : Option RunContextM) :
    ∀ (fuel : Nat) (s : S) (cur : String),
      (run_loop_inner g config run_ctx fuel s cur).puts =
        match (run_loop_inner g config run_ctx fuel s cur).res with
        | .ok t => puts_at_end g config t
        | _ => [] := by
  intro fuel
  induction fuel with
  | zero => intro s cur; rfl
  | succ n ih =>
    intro s cur
    simp only [run_loop_inner]
    split
    · rfl
    · split
      · rfl
      · split
        · rfl
        · simp only []
          rw [ih]
        · split
          · rfl
          · split
            · rfl
            · simp only []
              rw [ih]

/-- C5: (first conjunct) in every run of the execution loop — any graph,
middleware, context and fuel — the checkpoint writes are exactly the single
terminal write of the final state when the run returns `Ok` (nonempty only
when a checkpointer is attached and `config.thread_id` is set), and nothing
otherwise; in particular no write follows an intermediate node.  (Second
conjunct) invoking a single-node graph whose node returns `Next::End`
executes that node exactly once and performs exactly one checkpoint write of
the final state for the configured thread. -/
theorem c5_checkpoint_write_only_at_termination :
    (∀ (S : Type) (g : CompiledStateGraph S) (config : Option RunnableConfig)
        (run_ctx : Option RunContextM) (fuel : Nat) (s : S) (cur : String),
        (run_loop_inner g config run_ctx fuel s cur).puts =
          match (run_loop_inner g config run_ctx fuel s cur).res with
          | .ok t => puts_at_end g config t
          | _ => []) ∧
    (∀ (S : Type) (id : String) (f : S → S) (put_fn : PutFn S)
        (config : RunnableConfig) (tid : String) (s : S) (fuel : Nat),
        config.thread_id = some tid →
        CompiledStateGraph.invoke
          { nodes := [(id, Node.ofFun (fun t => .ok (f t, .End)))],
            edge_order := [id], checkpointer := some put_fn, middleware := none }
          s (some config) (fuel + 1) =
        { res := .ok (f s), events := [], puts := [f s],
          steps := [(id, f s)], execs := [id] }) := by
  constructor
  · intro S g config run_ctx fuel s cur
    exact run_loop_inner_puts_eq g config run_ctx fuel s cur
  · intro S id f put_fn config tid s fuel htid
    simp [CompiledStateGraph.invoke, run_loop_inner, lookup_node, node_step,
      Node.ofFun, emitted_events, puts_at_end, htid]

/-- Witness for C5: one node, `Next::End`, thread "t1": exactly one execution
and exactly one checkpoint write of the final state. -/
theorem c5_checkpoint_write_only_at_termination_witness :
    CompiledStateGraph.invoke
      { nodes := [("only", Node.ofFun (fun (t : Nat) => .ok (t + 5, .End)))],
        edge_order := ["only"], checkpointer := some (fun _ _ => .ok ()),
        middleware := none }
      0 (some { thread_id := some "t1", checkpoint_id := none, checkpoint_ns := "",
                user_id := none }) 3 =
    { res := .ok 5, events := [], puts := [5], steps := [("only", 5)],
      execs := ["only"] } := by
  have h := c5_checkpoint_write_only_at_termination.2 Nat "only" (fun t => t + 5)
    (fun _ _ => .ok ())
    { thread_id := some "t1", checkpoint_id := none, checkpoint_ns := "", user_id := none }
    "t1" 0 2 rfl
  simpa using h

/-- The run loop is insensitive to which put function the attached
checkpointer carries: the terminal write's result is discarded
(`let _ = cp.put(..)`), so two graphs differing only in the put function
produce identical runs. -/
theorem run_loop_inner_put_fn_irrelevant {S : Type}
    (nodes : List (String × Node S)) (order : List String)
    (mw : Option (NodeMiddlewareF S)) (p q : PutFn S)
    (config : Option RunnableConfig) (run_ctx : Option RunContextM) :
    ∀ (fuel : Nat) (s : S) (cur : String),
      run_loop_inner ⟨nodes, order, some p, mw⟩ config run_ctx fuel s cur =
        run_loop_inner ⟨nodes, order, some q, mw⟩ config run_ctx fuel s cur := by
  intro fuel
  induction fuel with
  | zero => intro s cur; rfl
  | succ n ih =>
    intro s cur
    simp only [run_loop_inner, puts_at_end]
    split
    · rfl
    · split
      · rfl
      · split
        · cases config <;> rfl
        · rw [ih]
        · split
          · rfl
          · split
            · cases config <;> rfl
            · rw [ih]

/-- C6: for every graph with a checkpointer attached and any config, if the
run with a checkpointer whose writes always succeed returns `Ok(t)`, then the
same run with an arbitrary put function — in particular one that always
fails — still returns `Ok(t)`: a checkpoint persistence failure never fails
the invocation. -/
theorem c6_put_failure_does_not_fail_invoke :
    ∀ (S : Type) (nodes : List (String × Node S)) (order : List String)
      (mw : Option (NodeMiddlewareF S)) (s : S) (config : Option RunnableConfig)
      (fuel : Nat) (put_fn : PutFn S) (t : S),
      (CompiledStateGraph.invoke ⟨nodes, order, some (fun _ _ => .ok ()), mw⟩
          s config fuel).res = .ok t →
      (CompiledStateGraph.invoke ⟨nodes, order, some put_fn, mw⟩
          s config fuel).res = .ok t := by
  intro S nodes order mw s config fuel put_fn t h
  cases order with
  | nil => exact absurd h (by simp [CompiledStateGraph.invoke])
  | cons first rest =>
    have h' : (run_loop_inner ⟨nodes, first :: rest, some (fun _ _ => .ok ()), mw⟩
        config none fuel s first).res = .ok t := h
    show (run_loop_inner ⟨nodes, first :: rest, some put_fn, mw⟩
        config none fuel s first).res = .ok t
    rw [run_loop_inner_put_fn_irrelevant nodes (first :: rest) mw put_fn
      (fun _ _ => .ok ()) config none fuel s first]
    exact h'

/-- Witness for C6: a two-node graph whose checkpointer always fails to write
still invokes to `Ok` with the final state. -/
theorem c6_put_failure_does_not_fail_invoke_witness :
    (CompiledStateGraph.invoke
      { nodes := [("first", Node.ofFun (fun (t : Nat) => .ok (t + 1, .Continue))),
                  ("second", Node.ofFun (fun (t : Nat) => .ok (t + 2, .Continue)))],
        edge_order := ["first", "second"],
        checkpointer := some (fun _ _ => .error { text := "disk full" }),
        middleware := none }
      0 (some { thread_id := some "t1", checkpoint_id := none, checkpoint_ns := "",
                user_id := none }) 2).res = .ok 3 :=
  c6_put_failure_does_not_fail_invoke Nat
    [("first", Node.ofFun (fun (t : Nat) => .ok (t + 1, .Continue))),
     ("second", Node.ofFun (fun (t : Nat) => .ok (t + 2, .Continue)))]
    ["first", "second"] none 0
    (some { thread_id := some "t1", checkpoint_id := none, checkpoint_ns := "",
            user_id := none }) 2 (fun _ _ => .error { text := "disk full" }) 3 (by rfl)

/-- The registration loop accepts every edge whose non-sentinel endpoints are
registered. -/
theorem check_edge_nodes_none {S : Type} (nodes : List (String × Node S)) :
    ∀ edges : List (String × String),
      (∀ e ∈ edges, (e.1 = START ∨ contains_key nodes e.1 = true) ∧
                    (e.2 = END ∨ contains_key nodes e.2 = true)) →
      check_edge_nodes nodes edges = none := by
  intro edges
  induction edges with
  | nil => intro _; rfl
  | cons e rest ih =>
    intro h
    obtain ⟨h1, h2⟩ := h e (by simp)
    obtain ⟨f, t⟩ := e
    have hc1 : (!(f == START) && !(contains_key nodes f)) = false := by
      rcases h1 with h1 | h1 <;> simp_all
    have hc2 : (!(t == END) && !(contains_key nodes t)) = false := by
      rcases h2 with h2 | h2 <;> simp_all
    simp only [check_edge_nodes, hc1, hc2, Bool.false_eq_true, if_false]
    exact ih (fun e he => h e (by simp [he]))

/-- With valid edge registration and at least two edges from `START`,
`compile_internal` fails with the branch-from-start `InvalidChain`. -/
theorem compile_internal_multi_start {S : Type} (g : StateGraph S)
    (cp : Option (PutFn S)) (mw : Option (NodeMiddlewareF S)) (a b : String)
    (t : List String)
    (hcheck : check_edge_nodes g.nodes g.edges = none)
    (hstart : (g.edges.filter (fun e => e.1 == START)).map (fun e => e.2) = a :: b :: t) :
    g.compile_internal cp mw = .error (.InvalidChain "multiple edges from START (branch)") := by
  unfold StateGraph.compile_internal
  rw [hcheck, hstart]

/-- With valid registration, one `START` edge, one `END` edge and a duplicated
non-`START` `from`, `compile_internal` fails with the duplicate-from
`InvalidChain`. -/
theorem compile_internal_dup_from {S : Type} (g : StateGraph S)
    (cp : Option (PutFn S)) (mw : Option (NodeMiddlewareF S))
    (first expected_last : String)
    (hcheck : check_edge_nodes g.nodes g.edges = none)
    (hstart : (g.edges.filter (fun e => e.1 == START)).map (fun e => e.2) = [first])
    (hend : (g.edges.filter (fun e => e.2 == END)).map (fun e => e.1) = [expected_last])
    (hfr : ¬ ((g.edges.filter (fun e => !(e.1 == START))).map (fun e => e.1)).Nodup) :
    g.compile_internal cp mw = .error (.InvalidChain "duplicate from (branch)") := by
  unfold StateGraph.compile_internal
  rw [hcheck, hstart, hend]
  exact if_neg hfr

/-- Mapping a key-projection past a key-filter. -/
theorem filter_fst_map_fst (edges : List (String × String)) (p : String → Bool) :
    (edges.filter (fun e => p e.1)).map (fun e => e.1) =
      (edges.map (fun e => e.1)).filter p := by
  induction edges with
  | nil => rfl
  | cons e rest ih => cases hp : p e.1 <;> simp [List.filter_cons, hp, ih]

/-- Any graph whose edges all reference registered nodes, with at least one
edge from `START`, exactly one edge to `END`, and a duplicated `from` value,
fails compilation with an `InvalidChain` error. -/
theorem compile_dup_from_invalid_chain {S : Type} (g : StateGraph S)
    (cp : Option (PutFn S)) (mw : Option (NodeMiddlewareF S))
    (hreg : ∀ e ∈ g.edges, (e.1 = START ∨ contains_key g.nodes e.1 = true) ∧
                           (e.2 = END ∨ contains_key g.nodes e.2 = true))
    (hstart : 0 < g.edges.countP (fun e => e.1 == START))
    (hend : g.edges.countP (fun e => e.2 == END) = 1)
    (hdup : ¬ (g.edges.map (fun e => e.1)).Nodup) :
    ∃ m, g.compile_internal cp mw = .error (.InvalidChain m) := by
  have hcheck := check_edge_nodes_none g.nodes g.edges hreg
  cases hs1 : (g.edges.filter (fun e => e.1 == START)).map (fun e => e.2) with
  | nil =>
    exfalso
    have hlen := congrArg List.length hs1
    rw [List.length_map, ← List.countP_eq_length_filter, List.length_nil] at hlen
    omega
  | cons a rest1 =>
    cases rest1 with
    | cons b t =>
      exact ⟨_, compile_internal_multi_start g cp mw a b t hcheck hs1⟩
    | nil =>
      have helen : ((g.edges.filter (fun e => e.2 == END)).map (fun e => e.1)).length = 1 := by
        rw [List.length_map, ← List.countP_eq_length_filter]
        exact hend
      obtain ⟨x, hx⟩ := List.length_eq_one.mp helen
      have hcnt1 : (g.edges.map (fun e => e.1)).countP (fun s => s == START) = 1 := by
        rw [List.countP_map]
        have hlen := congrArg List.length hs1
        rw [List.length_map, ← List.countP_eq_length_filter] at hlen
        simpa using hlen
      have hfr : ¬ ((g.edges.filter (fun e => !(e.1 == START))).map (fun e => e.1)).Nodup := by
        rw [filter_fst_map_fst g.edges (fun s => !(s == START))]
        intro hnd
        have hexists : ∃ y, 1 < (g.edges.map (fun e => e.1)).count y := by
          by_contra hno
          push_neg at hno
          exact hdup (List.nodup_iff_count_le_one.mpr hno)
        obtain ⟨y, hy⟩ := hexists
        have hyne : y ≠ START := by
          intro hcontra
          subst hcontra
          rw [List.count_eq_countP] at hy
          omega
        have hcy := List.nodup_iff_count_le_one.mp hnd y
        rw [List.count_filter (by simp [hyne])] at hcy
        omega
      exact ⟨_, compile_internal_dup_from g cp mw a x hcheck hs1 hx hfr⟩

/-- C7 (amended): for every graph whose edges all reference registered nodes,
with at least one edge from `START` and exactly one edge to `END`, in which
two edges share the same `from` id (the `from` projection is not
duplicate-free), `compile()` fails with an `InvalidChain` error — and the same
holds for every other insertion order (any permutation) of the same edge
multiset. -/
theorem c7_duplicate_from_fails_invalid_chain :
    ∀ (S : Type) (nodes : List (String × Node S)) (edges edges' : List (String × String))
      (mw : Option (NodeMiddlewareF S)),
      edges'.Perm edges →
      (∀ e ∈ edges, (e.1 = START ∨ contains_key nodes e.1 = true) ∧
                    (e.2 = END ∨ contains_key nodes e.2 = true)) →
      0 < edges.countP (fun e => e.1 == START) →
      edges.countP (fun e => e.2 == END) = 1 →
      ¬ (edges.map (fun e => e.1)).Nodup →
      (∃ m, (StateGraph.mk nodes edges mw).compile = .error (.InvalidChain m)) ∧
      (∃ m, (StateGraph.mk nodes edges' mw).compile = .error (.InvalidChain m)) := by
  intro S nodes edges edges' mw hperm hreg hstart hend hdup
  constructor
  · exact compile_dup_from_invalid_chain (StateGraph.mk nodes edges mw) none mw
      hreg hstart hend hdup
  · refine compile_dup_from_invalid_chain (StateGraph.mk nodes edges' mw) none mw
      ?_ ?_ ?_ ?_
    · intro e he
      exact hreg e (hperm.subset he)
    · rw [hperm.countP_eq]
      exact hstart
    · rw [hperm.countP_eq]
      exact hend
    · rw [(hperm.map (fun e => e.1)).nodup_iff]
      exact hdup

/-- Witness for C7: the edges `START→a, a→b, a→END` (node `a` has two outgoing
edges) fail with `InvalidChain` in both of two insertion orders. -/
theorem c7_duplicate_from_fails_invalid_chain_witness :
    (∃ m, (StateGraph.mk
        [("a", Node.ofFun (fun (s : Nat) => .ok (s, .Continue))),
         ("b", Node.ofFun (fun (s : Nat) => .ok (s, .Continue)))]
        [(START, "a"), ("a", "b"), ("a", END)] none).compile =
      .error (.InvalidChain m)) ∧
    (∃ m, (StateGraph.mk
        [("a", Node.ofFun (fun (s : Nat) => .ok (s, .Continue))),
         ("b", Node.ofFun (fun (s : Nat) => .ok (s, .Continue)))]
        [("a", END), ("a", "b"), (START, "a")] none).compile =
      .error (.InvalidChain m)) :=
  c7_duplicate_from_fails_invalid_chain Nat
    [("a", Node.ofFun (fun (s : Nat) => .ok (s, .Continue))),
     ("b", Node.ofFun (fun (s : Nat) => .ok (s, .Continue)))]
    [(START, "a"), ("a", "b"), ("a", END)]
    [("a", END), ("a", "b"), (START, "a")] none
    (by decide) (by decide) (by decide) (by decide) (by decide)

/-- Counterexample to C7 as stated: the graph with registered nodes `a,b,c`
and edges `a→b, a→c` has two edges sharing the same `from`, yet `compile()`
fails with `MissingStart`, not with the `InvalidChain` error the claim
names. -/
theorem c7_duplicate_from_counterexample :
    (([("a", "b"), ("a", "c")] : List (String × String)).countP
        (fun e => e.1 == "a") = 2) ∧
    ((StateGraph.mk
        [("a", Node.ofFun (fun (s : Nat) => .ok (s, .Continue))),
         ("b", Node.ofFun (fun (s : Nat) => .ok (s, .Continue))),
         ("c", Node.ofFun (fun (s : Nat) => .ok (s, .Continue)))]
        [("a", "b"), ("a", "c")] none).compile = .error .MissingStart) :=
  ⟨by decide, rfl⟩

/-- The `from` endpoints of a chain's links are exactly its nodes. -/
theorem chain_links_map_fst (xs : List String) :
    ∀ p : String, (chain_links p xs).map (fun e => e.1) = p :: xs := by
  induction xs with
  | nil => intro p; rfl
  | cons x xs ih => intro p; simp [chain_links, ih x]

/-- A chain through `p :: xs` has `xs.length + 1` links. -/
theorem chain_links_length (xs : List String) :
    ∀ p : String, (chain_links p xs).length = xs.length + 1 := by
  induction xs with
  | nil => intro p; rfl
  | cons x xs ih => intro p; simp [chain_links, ih x]

/-- Every link starts at a chain node and ends at a chain node or at `END`. -/
theorem mem_chain_links (xs : List String) :
    ∀ (p : String) (e : String × String), e ∈ chain_links p xs →
      e.1 ∈ p :: xs ∧ (e.2 ∈ xs ∨ e.2 = END) := by
  induction xs with
  | nil =>
    intro p e h
    simp only [chain_links, List.mem_singleton] at h
    subst h
    simp
  | cons x xs ih =>
    intro p e h
    simp only [chain_links, List.mem_cons] at h
    rcases h with h | h
    · subst h
      simp
    · obtain ⟨h1, h2⟩ := ih x e h
      refine ⟨List.mem_cons_of_mem _ h1, ?_⟩
      rcases h2 with h2 | h2
      · exact Or.inl (List.mem_cons_of_mem _ h2)
      · exact Or.inr h2

/-- If no chain node is `START`, no link leaves `START`. -/
theorem chain_links_filter_start (p : String) (xs : List String)
    (h : ∀ x ∈ p :: xs, x ≠ START) :
    (chain_links p xs).filter (fun e => e.1 == START) = [] := by
  rw [List.filter_eq_nil_iff]
  intro e he
  have := (mem_chain_links xs p e he).1
  simp [h e.1 this]

/-- If no chain node is `START`, the non-`START` filter keeps every link. -/
theorem chain_links_filter_ne_start (p : String) (xs : List String)
    (h : ∀ x ∈ p :: xs, x ≠ START) :
    (chain_links p xs).filter (fun e => !(e.1 == START)) = chain_links p xs := by
  rw [List.filter_eq_self]
  intro e he
  have := (mem_chain_links xs p e he).1
  simp [h e.1 this]

/-- If no chain node is `END`, the only link into `END` is the last one. -/
theorem chain_links_filter_end (xs : List String) :
    ∀ p : String, (∀ x ∈ xs, x ≠ END) →
      (chain_links p xs).filter (fun e => e.2 == END) = [(last_of p xs, END)] := by
  induction xs with
  | nil => intro p _; simp [chain_links, last_of]
  | cons x xs ih =>
    intro p h
    have hx : x ≠ END := h x (by simp)
    simp [chain_links, List.filter_cons, hx, last_of,
      ih x (fun y hy => h y (by simp [hy]))]

/-- If no chain node is `END`, the non-`END` link targets are the tail nodes. -/
theorem chain_links_filter_ne_end_map (xs : List String) :
    ∀ p : String, (∀ x ∈ xs, x ≠ END) →
      ((chain_links p xs).filter (fun e => !(e.2 == END))).map (fun e => e.2) = xs := by
  induction xs with
  | nil => intro p _; simp [chain_links]
  | cons x xs ih =>
    intro p h
    have hx : x ≠ END := h x (by simp)
    simp [chain_links, List.filter_cons, hx,
      ih x (fun y hy => h y (by simp [hy]))]

/-- The last chain node of a decomposed sequence. -/
theorem last_of_append (p : String) :
    ∀ (front : List String) (p₀ : String) (xs₀ : List String),
      p₀ :: xs₀ = front ++ [p] → last_of p₀ xs₀ = p := by
  intro front
  induction front with
  | nil =>
    intro p₀ xs₀ h
    injection h with h1 h2
    subst h1
    subst h2
    rfl
  | cons f fr ih =>
    intro p₀ xs₀ h
    injection h with h1 h2
    subst h1
    rw [List.append_eq] at h2
    cases hfr : fr ++ [p] with
    | nil => exact absurd hfr (by simp)
    | cons y ys =>
      rw [h2, hfr, last_of]
      exact ih y ys hfr.symm

/-- First-match lookup by key is permutation-invariant when keys are unique —
this is why `find?` over the edge list agrees with the source's `HashMap`
built from the same edges. -/
theorem find?_key_eq_of_perm (l l' : List (String × String)) (h : l.Perm l') :
    ((l.map (fun e => e.1)).Nodup) → ∀ k : String,
      l.find? (fun e => e.1 == k) = l'.find? (fun e => e.1 == k) := by
  induction h with
  | nil => intro _ k; rfl
  | cons a h ih =>
    intro hnd k
    rw [List.map_cons, List.nodup_cons] at hnd
    by_cases ha : a.1 = k
    · simp [List.find?_cons, ha]
    · simp only [List.find?_cons]
      rw [show (a.1 == k) = false from by simp [ha]]
      exact ih hnd.2 k
  | swap x y l =>
    intro hnd k
    have hxy : x.1 ≠ y.1 := by
      simp only [List.map_cons, List.nodup_cons, List.mem_cons] at hnd
      exact fun hc => hnd.1 (Or.inl hc.symm)
    by_cases hx : x.1 = k <;> by_cases hy : y.1 = k
    · exact absurd (hx.trans hy.symm) hxy
    · simp [List.find?_cons, hx, hy]
    · simp [List.find?_cons, hx, hy]
    · simp [List.find?_cons, hx, hy]
  | trans h₁ h₂ ih₁ ih₂ =>
    intro hnd k
    rw [ih₁ hnd k, ih₂ (((h₁.map (fun e => e.1)).nodup_iff).mp hnd) k]

/-- Looking up a chain node among the links finds its successor: the next
chain node, or `END` for the last node. -/
theorem chain_links_find?_suffix :
    ∀ (front : List String) (p₀ : String) (xs₀ : List String) (p : String)
      (xs : List String),
      (p₀ :: xs₀).Nodup →
      p₀ :: xs₀ = front ++ p :: xs →
      (chain_links p₀ xs₀).find? (fun e => e.1 == p) = some (p, xs.headD END) := by
  intro front
  induction front with
  | nil =>
    intro p₀ xs₀ p xs _ h
    injection h with h1 h2
    subst h1
    subst h2
    cases xs₀ with
    | nil => simp [chain_links, List.find?]
    | cons y ys => simp [chain_links, List.find?]
  | cons f fr ih =>
    intro p₀ xs₀ p xs hnd h
    injection h with h1 h2
    subst h1
    rw [List.append_eq] at h2
    cases hfr : fr ++ p :: xs with
    | nil => exact absurd hfr (by simp)
    | cons y ys =>
      have hfp : p₀ ≠ p := by
        have hf : p₀ ∉ xs₀ := (List.nodup_cons.mp hnd).1
        intro hc
        subst hc
        exact hf (by rw [h2]; simp)
      have hnd2 : (y :: ys).Nodup := by
        rw [← hfr, ← h2]
        exact (List.nodup_cons.mp hnd).2
      rw [h2, hfr]
      simp only [chain_links, List.find?_cons]
      rw [show ((p₀, y).1 == p) = false from by simp [hfp]]
      exact ih y ys p xs hnd2 hfr.symm

/-- For an edge multiset that is a permutation of a chain's edges, the
`next_map` lookup agrees with first-match lookup over the canonical links. -/
theorem next_map_find_eq_chain (first : String) (rest : List String)
    (edges : List (String × String))
    (hperm : edges.Perm (chain_edges (first :: rest)))
    (hnd : (first :: rest).Nodup)
    (hS : ∀ x ∈ first :: rest, x ≠ START) :
    ∀ k, next_map_find edges k =
      ((chain_links first rest).find? (fun e => e.1 == k)).map (fun e => e.2) := by
  have hchain : (chain_edges (first :: rest)).filter (fun e => !(e.1 == START)) =
      chain_links first rest := by
    simp [chain_edges, List.filter_cons, chain_links_filter_ne_start first rest hS]
  have hfilter : (edges.filter (fun e => !(e.1 == START))).Perm (chain_links first rest) := by
    have h1 := hperm.filter (fun e => !(e.1 == START))
    rwa [hchain] at h1
  have hkeys : ((edges.filter (fun e => !(e.1 == START))).map (fun e => e.1)).Nodup := by
    rw [(hfilter.map (fun e => e.1)).nodup_iff, chain_links_map_fst]
    exact hnd
  intro k
  unfold next_map_find
  rw [find?_key_eq_of_perm _ _ hfilter hkeys k]

/-- The walk of `compile_internal` follows the canonical chain: from any chain
position, with enough fuel and no remaining node already visited, it
accumulates exactly the remaining nodes and stops `Ok` at the chain's last
node. -/
theorem walk_chain_ok (first : String) (rest : List String)
    (next_of : String → Option String)
    (hnd : (first :: rest).Nodup) (hE : ∀ x ∈ first :: rest, x ≠ END)
    (hnext : ∀ (front : List String) (p : String) (xs : List String),
      first :: rest = front ++ p :: xs → next_of p = some (xs.headD END)) :
    ∀ (xs front : List String) (p : String) (visited acc : List String) (fuel : Nat),
      first :: rest = front ++ p :: xs →
      xs.length + 1 ≤ fuel →
      (∀ y ∈ xs, y ∉ visited) →
      walk_chain next_of (last_of first rest) fuel p visited acc = .ok (acc ++ xs) := by
  intro xs
  induction xs with
  | nil =>
    intro front p visited acc fuel heq hfuel _
    cases fuel with
    | zero => omega
    | succ n =>
      have hlast : last_of first rest = p :=
        last_of_append p front first rest heq
      simp [walk_chain, hnext front p [] heq, List.headD, hlast]
  | cons y xs' ih =>
    intro front p visited acc fuel heq hfuel hvis
    cases fuel with
    | zero => omega
    | succ n =>
      have hyE : y ≠ END := hE y (by rw [heq]; simp)
      have hynv : y ∉ visited := hvis y (by simp)
      have heq' : first :: rest = (front ++ [p]) ++ y :: xs' := by
        rw [heq]
        simp
      have hnodup_suffix : (p :: y :: xs').Nodup := by
        have : (front ++ p :: y :: xs').Nodup := by rw [← heq]; exact hnd
        exact this.of_append_right
      have hynxs : y ∉ xs' := by
        have := (List.nodup_cons.mp (List.nodup_cons.mp hnodup_suffix).2).1
        exact this
      have hvis' : ∀ z ∈ xs', z ∉ y :: visited := by
        intro z hz
        simp only [List.mem_cons]
        push_neg
        exact ⟨fun hc => hynxs (hc ▸ hz), hvis z (by simp [hz])⟩
      have hrec := ih (front ++ [p]) y (y :: visited) (acc ++ [y]) n heq'
        (by simpa using Nat.lt_succ_iff.mp (Nat.lt_of_lt_of_le (by simp) hfuel)) hvis'
      simp only [walk_chain, hnext front p (y :: xs') heq, List.headD]
      rw [show (y == END) = false from by simp [hyE]]
      rw [show (visited.contains y) = false from by simpa using hynv]
      simp only [Bool.false_eq_true, if_false]
      rw [hrec]
      simp

/-- `compile_internal` succeeds with the walk's order once every validation
step passes. -/
theorem compile_internal_ok_of {S : Type} (g : StateGraph S)
    (cp : Option (PutFn S)) (mw : Option (NodeMiddlewareF S))
    (first expected_last : String) (order : List String)
    (hcheck : check_edge_nodes g.nodes g.edges = none)
    (hstart : (g.edges.filter (fun e => e.1 == START)).map (fun e => e.2) = [first])
    (hend : (g.edges.filter (fun e => e.2 == END)).map (fun e => e.1) = [expected_last])
    (hfr : ((g.edges.filter (fun e => !(e.1 == START))).map (fun e => e.1)).Nodup)
    (hto : ((g.edges.filter (fun e => !(e.2 == END))).map (fun e => e.2)).Nodup)
    (hwalk : walk_chain (next_map_find g.edges) expected_last
        (g.edges.length + 1) first [first] [first] = .ok order) :
    g.compile_internal cp mw =
      .ok { nodes := g.nodes, edge_order := order, checkpointer := cp,
            middleware := mw } := by
  unfold StateGraph.compile_internal
  rw [hcheck, hstart, hend]
  simp only [hfr, hto, if_true]
  rw [hwalk]

/-- C1 (amended): for every graph whose edge multiset is, up to insertion
order, exactly the chain of a duplicate-free list of registered non-sentinel
nodes — one edge from `START` to the head, the chain links, one edge from the
tail to `END` (this strengthens the claim's hypotheses by requiring every
edge endpoint to be registered and every node occurring in an edge to be on
the walk) — `compile()` returns `Ok` and the compiled graph's execution order
is exactly that node list: every non-sentinel node of the edges exactly once,
starting at the `START` edge's target and ending at the `END` edge's
source. -/
theorem c1_compile_linear_chain_ok :
    ∀ (S : Type) (nodes : List (String × Node S)) (edges : List (String × String))
      (mw : Option (NodeMiddlewareF S)) (first : String) (rest : List String),
      (first :: rest).Nodup →
      (∀ x ∈ first :: rest, x ≠ START) →
      (∀ x ∈ first :: rest, x ≠ END) →
      (∀ x ∈ first :: rest, contains_key nodes x = true) →
      edges.Perm (chain_edges (first :: rest)) →
      (StateGraph.mk nodes edges mw).compile =
        .ok { nodes := nodes, edge_order := first :: rest, checkpointer := none,
              middleware := mw } := by
  intro S nodes edges mw first rest hnd hS hE hreg hperm
  have hreg' : ∀ e ∈ edges, (e.1 = START ∨ contains_key nodes e.1 = true) ∧
      (e.2 = END ∨ contains_key nodes e.2 = true) := by
    intro e he
    have hmem := hperm.subset he
    simp only [chain_edges, List.mem_cons] at hmem
    rcases hmem with heq | hmem
    · subst heq
      exact ⟨Or.inl rfl, Or.inr (hreg first (by simp))⟩
    · obtain ⟨h1, h2⟩ := mem_chain_links rest first e hmem
      refine ⟨Or.inr (hreg e.1 h1), ?_⟩
      rcases h2 with h2 | h2
      · exact Or.inr (hreg e.2 (by simp [h2]))
      · exact Or.inl h2
  have hcheck := check_edge_nodes_none nodes edges hreg'
  have hstart : (edges.filter (fun e => e.1 == START)).map (fun e => e.2) = [first] := by
    have h1 := (hperm.filter (fun e => e.1 == START)).map (fun e => e.2)
    have h2 : ((chain_edges (first :: rest)).filter
        (fun e => e.1 == START)).map (fun e => e.2) = [first] := by
      simp [chain_edges, List.filter_cons, chain_links_filter_start first rest hS]
    rw [h2] at h1
    exact List.perm_singleton.mp h1
  have hend : (edges.filter (fun e => e.2 == END)).map (fun e => e.1) =
      [last_of first rest] := by
    have h1 := (hperm.filter (fun e => e.2 == END)).map (fun e => e.1)
    have hfE : first ≠ END := hE first (by simp)
    have h2 : ((chain_edges (first :: rest)).filter
        (fun e => e.2 == END)).map (fun e => e.1) = [last_of first rest] := by
      simp [chain_edges, List.filter_cons, hfE,
        chain_links_filter_end rest first (fun y hy => hE y (by simp [hy]))]
    rw [h2] at h1
    exact List.perm_singleton.mp h1
  have hfr : ((edges.filter (fun e => !(e.1 == START))).map (fun e => e.1)).Nodup := by
    have h1 := (hperm.filter (fun e => !(e.1 == START))).map (fun e => e.1)
    have h2 : ((chain_edges (first :: rest)).filter
        (fun e => !(e.1 == START))).map (fun e => e.1) = first :: rest := by
      simp [chain_edges, List.filter_cons,
        chain_links_filter_ne_start first rest hS, chain_links_map_fst]
    rw [h2] at h1
    exact h1.nodup_iff.mpr hnd
  have hto : ((edges.filter (fun e => !(e.2 == END))).map (fun e => e.2)).Nodup := by
    have h1 := (hperm.filter (fun e => !(e.2 == END))).map (fun e => e.2)
    have hfE : first ≠ END := hE first (by simp)
    have h2 : ((chain_edges (first :: rest)).filter
        (fun e => !(e.2 == END))).map (fun e => e.2) = first :: rest := by
      simp [chain_edges, List.filter_cons, hfE,
        chain_links_filter_ne_end_map rest first (fun y hy => hE y (by simp [hy]))]
    rw [h2] at h1
    exact h1.nodup_iff.mpr hnd
  have hlen : edges.length = rest.length + 2 := by
    rw [hperm.length_eq]
    simp [chain_edges, chain_links_length]
  have hnext : ∀ (front : List String) (p : String) (xs : List String),
      first :: rest = front ++ p :: xs →
      next_map_find edges p = some (xs.headD END) := by
    intro front p xs heq
    rw [next_map_find_eq_chain first rest edges hperm hnd hS p,
      chain_links_find?_suffix front first rest p xs hnd heq]
    rfl
  have hwalk : walk_chain (next_map_find edges) (last_of first rest)
      (edges.length + 1) first [first] [first] = .ok (first :: rest) := by
    have hvis : ∀ y ∈ rest, y ∉ ([first] : List String) := by
      intro y hy
      simp only [List.mem_singleton]
      intro hc
      exact (List.nodup_cons.mp hnd).1 (hc ▸ hy)
    have h := walk_chain_ok first rest (next_map_find edges) hnd hE hnext rest []
      first [first] [first] (edges.length + 1) (by simp) (by omega) hvis
    simpa using h
  exact compile_internal_ok_of (StateGraph.mk nodes edges mw) none mw first
    (last_of first rest) (first :: rest) hcheck hstart hend hfr hto hwalk

/-- Witness for C1: the chain `a → b` inserted in a shuffled edge order
compiles to execution order `["a", "b"]`. -/
theorem c1_compile_linear_chain_ok_witness :
    (StateGraph.mk
        [("a", Node.ofFun (fun (s : Nat) => .ok (s, .Continue))),
         ("b", Node.ofFun (fun (s : Nat) => .ok (s, .Continue)))]
        [("b", END), (START, "a"), ("a", "b")] none).compile =
      .ok { nodes := [("a", Node.ofFun (fun (s : Nat) => .ok (s, .Continue))),
                      ("b", Node.ofFun (fun (s : Nat) => .ok (s, .Continue)))],
            edge_order := ["a", "b"], checkpointer := none, middleware := none } :=
  c1_compile_linear_chain_ok Nat
    [("a", Node.ofFun (fun (s : Nat) => .ok (s, .Continue))),
     ("b", Node.ofFun (fun (s : Nat) => .ok (s, .Continue)))]
    [("b", END), (START, "a"), ("a", "b")] none "a" ["b"]
    (by decide) (by decide) (by decide) (by decide) (by decide)

/-- Counterexample to C1 as stated: the graph with NO registered nodes and
edges `START→a, a→END` satisfies all of the claim's hypotheses — exactly one
edge from `START`, exactly one into `END`, duplicate-free froms and tos
outside the sentinel positions, and a walk `a → END` that reaches the `END`
edge without revisiting a node — yet `compile()` returns
`Err(NodeNotFound("a"))`, not `Ok`. -/
theorem c1_compile_linear_chain_counterexample :
    (([((START : String), "a"), ("a", END)].countP (fun e => e.1 == START) = 1) ∧
     ([((START : String), "a"), ("a", END)].countP (fun e => e.2 == END) = 1) ∧
     (([((START : String), "a"), ("a", END)].filter
        (fun e => !(e.1 == START))).map (fun e => e.1)).Nodup ∧
     (([((START : String), "a"), ("a", END)].filter
        (fun e => !(e.2 == END))).map (fun e => e.2)).Nodup) ∧
    ((StateGraph.mk ([] : List (String × Node Nat))
        [(START, "a"), ("a", END)] none).compile = .error (.NodeNotFound "a")) :=
  ⟨by decide, rfl⟩
